import Mathlib

/-!
# Verification of the psignifit prior / result layer

Shallow embedding of `psignifit/priors.py` (prior construction, validation and
normalization) and of the spec-described `Result` query/serialization layer,
together with theorems settling the specification claims about them.

Numeric arrays are modelled as `List ℝ` (the module's numpy code performs exact
real arithmetic up to rounding, which we idealize as real arithmetic); values
that may be NaN/Inf are modelled by an explicit `PyFloat` type.
-/

namespace Psignifit

/-! ## Numeric list helpers (numpy primitives used by priors.py) -/

/-- `np.linspace a b num`: `num` evenly spaced samples from `a` to `b`,
endpoints included: the `i`-th sample is `a + (b - a) * i / (num - 1)`. -/
noncomputable def linspace (a b : ℝ) (num : ℕ) : List ℝ :=
  (List.range num).map fun i : ℕ => a + (b - a) * (i : ℝ) / ((num : ℝ) - 1)

/-- `np.diff`: differences of consecutive elements. -/
noncomputable def diffs (l : List ℝ) : List ℝ :=
  List.zipWith (fun u v => v - u) l l.tail

/-- `np.convolve d [0.5, 0.5]` (full mode): the trapezoid weight vector built
from the adjacent-interval widths `d`. -/
noncomputable def convHalf (d : List ℝ) : List ℝ :=
  List.zipWith (fun u v => (u + v) / 2) (0 :: d) (d ++ [0])

/-- `np.min` over a (nonempty) list; 0 on the empty list, a case on which no
theorem below depends. -/
noncomputable def listMin : List ℝ → ℝ
  | [] => 0
  | a :: t => t.foldl min a

/-- `np.max` over a (nonempty) list; 0 on the empty list. -/
noncomputable def listMax : List ℝ → ℝ
  | [] => 0
  | a :: t => t.foldl max a

open Classical in
/-- `np.unique`: the sorted list of distinct values. -/
noncomputable def sortedUnique (l : List ℝ) : List ℝ :=
  (l.insertionSort (· ≤ ·)).dedup

/-! ## Default priors (`priors.py` lines 9–45)

`prior_threshold(x, st_range)` and `prior_width(x, alpha, wmin, wmax)` act
elementwise on arrays; we embed the scalar action.  The masked assignments
`p[interior] = 1`, `p[left] = …`, `p[right] = …` execute in that order, so a
later mask overwrites an earlier one where they overlap; the nested `if`s
below test the masks in the reverse order to reproduce that. -/

open Classical in
/-- `prior_threshold` from priors.py: flat 1 on `(s0, s1)` with raised-cosine
tapers over `[s0 - sp/2, s0]` and `[s1, s1 + sp/2]` where `sp = s1 - s0`. -/
noncomputable def prior_threshold (x s0 s1 : ℝ) : ℝ :=
  let sp := s1 - s0
  if s1 ≤ x ∧ x ≤ s1 + sp / 2 then (1 + Real.cos (2 * Real.pi * (x - s1) / sp)) / 2
  else if s0 - sp / 2 ≤ x ∧ x ≤ s0 then (1 + Real.cos (2 * Real.pi * (s0 - x) / sp)) / 2
  else if s0 < x ∧ x < s1 then 1
  else 0

open Classical in
/-- The width prior's shape applied to the already rescaled value `y`:
the body of `prior_width` after the line `y = x * Cfactor`. -/
noncomputable def width_shape (y wmin wmax : ℝ) : ℝ :=
  if wmax ≤ y ∧ y ≤ 3 * wmax then (1 + Real.cos (Real.pi / 2 * (y - wmax) / wmax)) / 2
  else if wmin ≤ y ∧ y ≤ 2 * wmin then (1 - Real.cos (Real.pi * (y - wmin) / wmin)) / 2
  else if 2 * wmin < y ∧ y < wmax then 1
  else 0

/-- The rescale factor `(norminv(.95) - norminv(.05)) / (norminv(1-alpha) - norminv(alpha))`.
`norminv` lives in `psignifit/utils.py`, which is not part of the sources at
hand, so the factor is parameterized by the inverse-CDF function. -/
noncomputable def Cfactor (norminv : ℝ → ℝ) (alpha : ℝ) : ℝ :=
  (norminv 0.95 - norminv 0.05) / (norminv (1 - alpha) - norminv alpha)

/-- `prior_width` from priors.py: rescale `x` by `Cfactor`, then apply the
cosine-tapered shape. -/
noncomputable def prior_width (norminv : ℝ → ℝ) (x alpha wmin wmax : ℝ) : ℝ :=
  width_shape (x * Cfactor norminv alpha) wmin wmax

open Classical in
/-- `prior_threshold` rewritten as a chain of single-threshold cases (used to
establish continuity); proved equal to `prior_threshold` when `s0 < s1`. -/
noncomputable def thresholdTaper (s0 s1 : ℝ) : ℝ → ℝ := fun x =>
  if x ≤ s0 - (s1 - s0) / 2 then 0
  else if x ≤ s0 then (1 + Real.cos (2 * Real.pi * (s0 - x) / (s1 - s0))) / 2
  else if x ≤ s1 then 1
  else if x ≤ s1 + (s1 - s0) / 2 then (1 + Real.cos (2 * Real.pi * (x - s1) / (s1 - s0))) / 2
  else 0

open Classical in
/-- `width_shape` rewritten as a chain of single-threshold cases (used to
establish continuity); proved equal to `width_shape` when `0 < wmin` and
`2·wmin < wmax`. -/
noncomputable def widthTaper (wmin wmax : ℝ) : ℝ → ℝ := fun y =>
  if y ≤ wmin then 0
  else if y ≤ 2 * wmin then (1 - Real.cos (Real.pi * (y - wmin) / wmin)) / 2
  else if y ≤ wmax then 1
  else if y ≤ 3 * wmax then (1 + Real.cos (Real.pi / 2 * (y - wmax) / wmax)) / 2
  else 0

/-! ## Prior normalization (`priors.py` lines 164–198) -/

/-- `normalizeFunction(func, integral)`: the prior divided pointwise by the
computed integral. -/
noncomputable def normalizeFunction (func : ℝ → ℝ) (integral : ℝ) : ℝ → ℝ :=
  fun x => func x / integral

/-- The numerical integral computed inside `normalizePriors`: evaluate the
prior at 1000 evenly spaced points of `[lo, hi]` and sum against the
trapezoid weights `w = convolve(diff x, [.5, .5])`. -/
noncomputable def priorIntegral (f : ℝ → ℝ) (lo hi : ℝ) : ℝ :=
  (List.zipWith (· * ·) ((linspace lo hi 1000).map f)
    (convHalf (diffs (linspace lo hi 1000)))).sum

open Classical in
/-- `normalizePriors(options)`: normalize each prior over its borders;
a parameter whose upper border does not exceed its lower border gets the
constant function 1 instead. -/
noncomputable def normalizePriors (priors : List (ℝ → ℝ)) (borders : List (ℝ × ℝ)) :
    List (ℝ → ℝ) :=
  List.zipWith
    (fun f b =>
      if b.1 < b.2 then normalizeFunction f (priorIntegral f b.1 b.2)
      else fun _ => (1 : ℝ))
    priors borders

/-! ## `getStandardPriors` (`priors.py` lines 47–95)

`getStandardPriors` appends five lambdas to a list and returns it, but the
global names their bodies resolve at call time — `prior1`, `prior2` and
`ss` — are bound nowhere in the module: the module imports only `np`,
`warnings` and `norminv`, and its own prior functions are named
`prior_threshold` and `prior_width`.  Python resolves a closure's free
global names in the module's global namespace at call time, so every
returned prior raises `NameError` when evaluated.  The name environment is
made explicit below to settle this. -/

/-- The names bound at module scope in `psignifit/priors.py`: the imports
(`import numpy as np`, `import warnings`, `from .utils import norminv`) and
the module's own top-level functions. -/
def priorsModuleGlobals : List String :=
  ["np", "warnings", "norminv", "prior_threshold", "prior_width",
   "getStandardPriors", "checkPriors", "testForWarnings", "normalizeFunction",
   "normalizePriors"]

/-- The free global name each closure returned by `getStandardPriors`
resolves when called, in list order: element 0 (threshold) calls
`prior1(x, xspread, options['stimulusRange'])`, element 1 (width) calls
`prior2(x, Cfactor, widthmin, widthmax)`, and elements 2–4 (lambda, gamma,
eta) call `ss.beta.pdf(x, 1, ·)`. -/
def getStandardPriorsCalledGlobals : List String :=
  ["prior1", "prior2", "ss", "ss", "ss"]

/-- Calling a closure whose body resolves a global name not bound in the
module's namespace raises `NameError`. -/
def raisesNameError (g : String) : Prop := g ∉ priorsModuleGlobals

/-! ## Prior validation (`priors.py` lines 98–162)

User-supplied priors may return NaN, Inf or negative values, so their outputs
are modelled by `PyFloat` (finite float values are rationals). -/

/-- A Python float result: a finite value, NaN, or a signed infinity. -/
inductive PyFloat where
  | fin (q : ℚ)
  | nan
  | inf
  | ninf
deriving DecidableEq

/-- `np.isfinite`. -/
def PyFloat.isFinite : PyFloat → Bool
  | .fin _ => true
  | _ => false

/-- The Python comparison `v >= 0` (False for NaN, True for `inf`). -/
def PyFloat.nonneg : PyFloat → Bool
  | .fin q => decide (0 ≤ q)
  | .inf => true
  | _ => false

/-- The Python comparison `v == 0` (False for NaN and infinities). -/
def PyFloat.isZero : PyFloat → Bool
  | .fin q => decide (q = 0)
  | _ => false

/-- A value that makes `testForWarnings` raise: non-finite or negative. -/
def PyFloat.bad : PyFloat → Bool
  | .fin q => decide (q < 0)
  | _ => true

/-- Finite and strictly positive. -/
def PyFloat.strictlyPos : PyFloat → Bool
  | .fin q => decide (0 < q)
  | _ => false

/-- `testForWarnings(testResult, parameter)`: assert all outputs finite, then
all non-negative (raising `AssertionError` otherwise), then emit a warning if
any output is exactly zero.  `Except.error` models the raised assertion,
`Except.ok (some w)` a warning, `Except.ok none` silence. -/
def testForWarnings (testResult : List PyFloat) (parameter : String) :
    Except String (Option String) :=
  if testResult.all PyFloat.isFinite then
    if testResult.all PyFloat.nonneg then
      if testResult.any PyFloat.isZero then
        Except.ok (some ("the prior you provided for " ++ parameter ++ " returns zeros"))
      else Except.ok none
    else Except.error ("the prior you provided for " ++ parameter ++ " returns negative values")
  else Except.error ("the prior you provided for " ++ parameter ++ " returns non-finite values")

/-- Sequencing of the per-parameter checks inside `checkPriors`: a raised
assertion aborts the run, warnings accumulate. -/
def stepCheck (acc : Except String (List String)) (r : Except String (Option String)) :
    Except String (List String) :=
  match acc with
  | .error e => .error e
  | .ok ws =>
    match r with
    | .error e => .error e
    | .ok none => .ok ws
    | .ok (some w) => .ok (ws ++ [w])

/-- Run the per-parameter checks in order, starting from no warnings. -/
def foldStep (rs : List (Except String (Option String))) : Except String (List String) :=
  rs.foldl stepCheck (Except.ok [])

/-- The slice of `options` that `checkPriors` uses: the `logspace` flag and
the five configured prior functions, in the order threshold, width, lambda,
gamma, eta. -/
structure CheckOptions where
  logspace : Bool
  priors : Fin 5 → ℝ → PyFloat

/-- The probe values for the threshold prior:
`np.linspace(data_min - .4*dataspread, data_max + .4*dataspread, 25)`. -/
noncomputable def thresholdTestValues (col : List ℝ) : List ℝ :=
  linspace (listMin col - 0.4 * (listMax col - listMin col))
    (listMax col + 0.4 * (listMax col - listMin col)) 25

/-- The probe values for the width prior:
`np.linspace(1.1*np.min(np.diff(np.sort(np.unique(col)))), 2.9*dataspread, 25)`. -/
noncomputable def widthTestValues (col : List ℝ) : List ℝ :=
  linspace (1.1 * listMin (diffs (sortedUnique col)))
    (2.9 * (listMax col - listMin col)) 25

/-- The probe values for lambda: `np.linspace(0.0001, .9, 25)`. -/
noncomputable def lambdaTestValues : List ℝ := linspace 0.0001 0.9 25

/-- The probe values for gamma: `np.linspace(0.0001, .9, 25)`. -/
noncomputable def gammaTestValues : List ℝ := linspace 0.0001 0.9 25

/-- The probe values for eta: `np.linspace(0, .9, 25)`. -/
noncomputable def etaTestValues : List ℝ := linspace 0 0.9 25

/-- `checkPriors(data, options)`: optionally log-transform the stimulus-level
column in place, then probe the five priors in the fixed order.  The first
component is the outcome (error / accumulated warnings), the second is the
data array as the caller sees it after the call (the in-place mutation made
by `data[:,0] = np.log(data[:,0])`). -/
noncomputable def checkPriors (data : List (ℝ × ℝ × ℝ)) (options : CheckOptions) :
    Except String (List String) × List (ℝ × ℝ × ℝ) :=
  let data' := if options.logspace
    then data.map (fun r => (Real.log r.1, r.2.1, r.2.2)) else data
  let col := data'.map (fun r => r.1)
  (foldStep
    [testForWarnings ((thresholdTestValues col).map (options.priors 0)) "the threshold",
     testForWarnings ((widthTestValues col).map (options.priors 1)) "the width",
     testForWarnings (lambdaTestValues.map (options.priors 2)) "lambda",
     testForWarnings (gammaTestValues.map (options.priors 3)) "gamma",
     testForWarnings (etaTestValues.map (options.priors 4)) "eta"],
   data')

/-- The (possibly log-transformed) stimulus-level column the probes are built
from, as the spec describes it. -/
noncomputable def specColumn (data : List (ℝ × ℝ × ℝ)) (logspace : Bool) : List ℝ :=
  if logspace then data.map fun r => Real.log r.1 else data.map fun r => r.1

/-- The probe values for the `i`-th parameter, in the fixed order threshold,
width, lambda, gamma, eta. -/
noncomputable def probeValues (col : List ℝ) : Fin 5 → List ℝ
  | 0 => thresholdTestValues col
  | 1 => widthTestValues col
  | 2 => lambdaTestValues
  | 3 => gammaTestValues
  | 4 => etaTestValues

/-- The name used in the `i`-th parameter's messages. -/
def paramName : Fin 5 → String
  | 0 => "the threshold"
  | 1 => "the width"
  | 2 => "lambda"
  | 3 => "gamma"
  | 4 => "eta"

/-- The outputs of the `i`-th prior over its probe values. -/
noncomputable def priorProbeOutputs (data : List (ℝ × ℝ × ℝ)) (options : CheckOptions)
    (i : Fin 5) : List PyFloat :=
  (probeValues (specColumn data options.logspace) i).map (options.priors i)

/-- Whether the check raised (an assertion failed). -/
def raisesB : Except String (List String) → Bool
  | .error _ => true
  | .ok _ => false

/-- Whether the check finished normally but issued at least one warning. -/
def warnsB : Except String (List String) → Bool
  | .ok (_ :: _) => true
  | _ => false

/-- Whether one per-parameter check raised. -/
def isErrS : Except String (Option String) → Bool
  | .error _ => true
  | .ok _ => false

/-- The warning (if any) of one per-parameter check. -/
def warnOf : Except String (Option String) → Option String
  | .ok (some w) => some w
  | _ => none

/-! ## The Result layer

`psignifit`'s Result class is not among the sources at hand — only its test
file is — so the data model, the threshold range check and the serialization
are modelled from the spec (§3, §4.4, §6). -/

/-- Modelled from the spec: a JSON document as written by `save_json`.
Numbers carry exact values: the spec requires full-precision text encoding of
floats, and every finite float is a rational. -/
inductive Json where
  | num (q : ℚ)
  | str (s : String)
  | jbool (b : Bool)
  | arr (items : List Json)
  | obj (fields : List (String × Json))

/-- Modelled from the spec: the five-parameter mapping with the fixed key set
{threshold, width, lambda, gamma, eta}. -/
structure ParamDict (α : Type) where
  threshold : α
  width : α
  lambda : α
  gamma : α
  eta : α
deriving DecidableEq

/-- Modelled from the spec: the estimate-type selector, `MAP` or `mean`. -/
inductive EstimateType where
  | MAP
  | mean
deriving DecidableEq

/-- Modelled from the spec (§6): the slice of the fitting configuration a
Result carries — stimulus range, width bounds and alpha, beta-prior strength,
per-parameter borders, log-space flag. -/
structure Configuration where
  stimulusRange : ℚ × ℚ
  widthmin : ℚ
  widthalpha : ℚ
  betaPrior : ℚ
  borders : ParamDict (ℚ × ℚ)
  logspace : Bool
deriving DecidableEq

/-- Modelled from the spec (§3): an immutable snapshot of a completed fit. -/
structure Result where
  configuration : Configuration
  parameters_estimate_MAP : ParamDict ℚ
  parameters_estimate_mean : ParamDict ℚ
  confidence_intervals : ParamDict (List (ℚ × ℚ))
  data : List (ℚ × ℚ × ℚ)
  parameter_values : ParamDict (List ℚ)
  prior_values : ParamDict (List ℚ)
  marginal_posterior_values : ParamDict (List ℚ)
  debug : List (String × List ℚ)
  estimate_type : EstimateType
deriving DecidableEq

open Classical in
/-- Modelled from the spec (§4.4, §7): the validity check `Result.threshold`
performs on a query criterion — `proportion_correct` must lie strictly inside
`(gamma, 1 - lambda)`; a value at or below `gamma`, or at or above
`1 - lambda`, raises a `ValueError` at the call site. -/
noncomputable def threshold_range_check (gamma lambda pc : ℝ) : Except String Unit :=
  if pc ≤ gamma then
    Except.error "proportion_correct below the guess rate gamma"
  else if 1 - lambda ≤ pc then
    Except.error "proportion_correct above 1 - lambda"
  else Except.ok ()

/-- Whether a threshold query raised. -/
def queryRaises : Except String Unit → Bool
  | .error _ => true
  | .ok _ => false

/-- Encode a pair of rationals as a two-element JSON array. -/
def encPair (p : ℚ × ℚ) : Json := .arr [.num p.1, .num p.2]

/-- Decode a two-element JSON array of numbers. -/
def decPair : Json → Option (ℚ × ℚ)
  | .arr [.num a, .num b] => some (a, b)
  | _ => none

/-- Encode a data row (stimulus level, hits, trials). -/
def encTriple (p : ℚ × ℚ × ℚ) : Json := .arr [.num p.1, .num p.2.1, .num p.2.2]

/-- Decode a data row. -/
def decTriple : Json → Option (ℚ × ℚ × ℚ)
  | .arr [.num a, .num b, .num c] => some (a, b, c)
  | _ => none

/-- Decode a JSON number. -/
def decQ : Json → Option ℚ
  | .num q => some q
  | _ => none

/-- Encode a list elementwise as a JSON array. -/
def encList (e : α → Json) (l : List α) : Json := .arr (l.map e)

/-- Decode a list of JSON values elementwise, failing if any element fails. -/
def decEach (d : Json → Option α) : List Json → Option (List α)
  | [] => some []
  | j :: t => do
    let a ← d j
    let r ← decEach d t
    pure (a :: r)

/-- Decode a JSON array elementwise. -/
def decList (d : Json → Option α) : Json → Option (List α)
  | .arr items => decEach d items
  | _ => none

/-- Encode a five-parameter mapping as a JSON object keyed by the parameter
names. -/
def encParamDict (e : α → Json) (d : ParamDict α) : Json :=
  .obj [("threshold", e d.threshold), ("width", e d.width), ("lambda", e d.lambda),
        ("gamma", e d.gamma), ("eta", e d.eta)]

/-- Decode a five-parameter mapping by key lookup. -/
def decParamDict (d : Json → Option α) : Json → Option (ParamDict α)
  | .obj fields => do
      let t ← (List.lookup "threshold" fields).bind d
      let w ← (List.lookup "width" fields).bind d
      let l ← (List.lookup "lambda" fields).bind d
      let g ← (List.lookup "gamma" fields).bind d
      let e ← (List.lookup "eta" fields).bind d
      pure ⟨t, w, l, g, e⟩
  | _ => none

/-- Encode the estimate-type selector. -/
def encEstimateType : EstimateType → Json
  | .MAP => .str "MAP"
  | .mean => .str "mean"

/-- Decode the estimate-type selector. -/
def decEstimateType : Json → Option EstimateType
  | .str "MAP" => some .MAP
  | .str "mean" => some .mean
  | _ => none

/-- Encode the configuration as its own JSON object (dict form). -/
def encConfiguration (c : Configuration) : Json :=
  .obj [("stimulusRange", encPair c.stimulusRange), ("widthmin", .num c.widthmin),
        ("widthalpha", .num c.widthalpha), ("betaPrior", .num c.betaPrior),
        ("borders", encParamDict encPair c.borders), ("logspace", .jbool c.logspace)]

/-- Decode a JSON boolean. -/
def decBool : Json → Option Bool
  | .jbool b => some b
  | _ => none

/-- Decode the configuration from its dict form. -/
def decConfiguration : Json → Option Configuration
  | .obj fields => do
      let sr ← (List.lookup "stimulusRange" fields).bind decPair
      let wm ← (List.lookup "widthmin" fields).bind decQ
      let wa ← (List.lookup "widthalpha" fields).bind decQ
      let bp ← (List.lookup "betaPrior" fields).bind decQ
      let bo ← (List.lookup "borders" fields).bind (decParamDict decPair)
      let ls ← (List.lookup "logspace" fields).bind decBool
      pure ⟨sr, wm, wa, bp, bo, ls⟩
  | _ => none

/-- Encode the opaque debug payload. -/
def encDebug (dbg : List (String × List ℚ)) : Json :=
  .obj (dbg.map fun p => (p.1, encList Json.num p.2))

/-- Decode one debug entry (name, numeric array). -/
def decDebugEntry (p : String × Json) : Option (String × List ℚ) :=
  (decList decQ p.2).map fun l => (p.1, l)

/-- Decode the opaque debug payload entry by entry. -/
def decDebugEntries : List (String × Json) → Option (List (String × List ℚ))
  | [] => some []
  | p :: t => do
    let a ← decDebugEntry p
    let r ← decDebugEntries t
    pure (a :: r)

/-- Decode the opaque debug payload. -/
def decDebug : Json → Option (List (String × List ℚ))
  | .obj fields => decDebugEntries fields
  | _ => none

/-- Modelled from the spec: `Result.as_dict` — the plain nested mapping, with
the configuration nested as its own dict form. -/
def Result.as_dict (r : Result) : Json :=
  .obj [("configuration", encConfiguration r.configuration),
        ("parameters_estimate_MAP", encParamDict Json.num r.parameters_estimate_MAP),
        ("parameters_estimate_mean", encParamDict Json.num r.parameters_estimate_mean),
        ("confidence_intervals",
          encParamDict (encList encPair) r.confidence_intervals),
        ("data", encList encTriple r.data),
        ("parameter_values", encParamDict (encList Json.num) r.parameter_values),
        ("prior_values", encParamDict (encList Json.num) r.prior_values),
        ("marginal_posterior_values",
          encParamDict (encList Json.num) r.marginal_posterior_values),
        ("debug", encDebug r.debug),
        ("estimate_type", encEstimateType r.estimate_type)]

/-- Modelled from the spec: `Result.from_dict` — rebuild a Result from the
nested mapping, field by field. -/
def Result.from_dict : Json → Option Result
  | .obj fields => do
      let c ← (List.lookup "configuration" fields).bind decConfiguration
      let pm ← (List.lookup "parameters_estimate_MAP" fields).bind (decParamDict decQ)
      let pe ← (List.lookup "parameters_estimate_mean" fields).bind (decParamDict decQ)
      let ci ← (List.lookup "confidence_intervals" fields).bind
        (decParamDict (decList decPair))
      let da ← (List.lookup "data" fields).bind (decList decTriple)
      let pv ← (List.lookup "parameter_values" fields).bind (decParamDict (decList decQ))
      let prv ← (List.lookup "prior_values" fields).bind (decParamDict (decList decQ))
      let mp ← (List.lookup "marginal_posterior_values" fields).bind
        (decParamDict (decList decQ))
      let db ← (List.lookup "debug" fields).bind decDebug
      let et ← (List.lookup "estimate_type" fields).bind decEstimateType
      pure ⟨c, pm, pe, ci, da, pv, prv, mp, db, et⟩
  | _ => none

/-- Modelled from the spec: `save_json` persists the `as_dict` mapping as a
JSON document; the document (full-precision, hence exact) is modelled as the
`Json` value written to the file. -/
def Result.save_json (r : Result) : Json := r.as_dict

/-- Modelled from the spec: `load_json` reads the document back and rebuilds
the Result via `from_dict`. -/
def Result.load_json (doc : Json) : Option Result := Result.from_dict doc

/-- Key lookup in a JSON object (used to state that the configuration is
nested as its own dict). -/
def jsonLookup (j : Json) (k : String) : Option Json :=
  match j with
  | .obj fields => List.lookup k fields
  | _ => none

/-! ## Theorems -/

/-! ### Helper lemmas about the taper shapes -/

lemma prior_threshold_bounds (x s0 s1 : ℝ) :
    0 ≤ prior_threshold x s0 s1 ∧ prior_threshold x s0 s1 ≤ 1 := by
  simp only [prior_threshold]
  split_ifs with h1 h2 h3
  · have ha := Real.neg_one_le_cos (2 * Real.pi * (x - s1) / (s1 - s0))
    have hb := Real.cos_le_one (2 * Real.pi * (x - s1) / (s1 - s0))
    constructor <;> linarith
  · have ha := Real.neg_one_le_cos (2 * Real.pi * (s0 - x) / (s1 - s0))
    have hb := Real.cos_le_one (2 * Real.pi * (s0 - x) / (s1 - s0))
    constructor <;> linarith
  · constructor <;> norm_num
  · constructor <;> norm_num

lemma width_shape_bounds (y wmin wmax : ℝ) :
    0 ≤ width_shape y wmin wmax ∧ width_shape y wmin wmax ≤ 1 := by
  simp only [width_shape]
  split_ifs with h1 h2 h3
  · have ha := Real.neg_one_le_cos (Real.pi / 2 * (y - wmax) / wmax)
    have hb := Real.cos_le_one (Real.pi / 2 * (y - wmax) / wmax)
    constructor <;> linarith
  · have ha := Real.neg_one_le_cos (Real.pi * (y - wmin) / wmin)
    have hb := Real.cos_le_one (Real.pi * (y - wmin) / wmin)
    constructor <;> linarith
  · constructor <;> norm_num
  · constructor <;> norm_num

lemma prior_threshold_eq_taper (s0 s1 : ℝ) (h : s0 < s1) (x : ℝ) :
    prior_threshold x s0 s1 = thresholdTaper s0 s1 x := by
  have hsp : (0 : ℝ) < s1 - s0 := sub_pos.mpr h
  have hne : s1 - s0 ≠ 0 := ne_of_gt hsp
  simp only [prior_threshold, thresholdTaper]
  rcases lt_or_le x (s0 - (s1 - s0) / 2) with hA | hA
  · have c1 : ¬(s1 ≤ x ∧ x ≤ s1 + (s1 - s0) / 2) := fun hc => by linarith [hc.1]
    have c2 : ¬(s0 - (s1 - s0) / 2 ≤ x ∧ x ≤ s0) := fun hc => by linarith [hc.1]
    have c3 : ¬(s0 < x ∧ x < s1) := fun hc => by linarith [hc.1]
    rw [if_neg c1, if_neg c2, if_neg c3, if_pos hA.le]
  · rcases le_or_lt x s0 with hB | hB
    · have c1 : ¬(s1 ≤ x ∧ x ≤ s1 + (s1 - s0) / 2) := fun hc => by linarith [hc.1]
      rw [if_neg c1, if_pos ⟨hA, hB⟩]
      rcases eq_or_lt_of_le hA with hAe | hAl
      · rw [if_pos hAe.ge, ← hAe]
        have harg : 2 * Real.pi * (s0 - (s0 - (s1 - s0) / 2)) / (s1 - s0) = Real.pi := by
          field_simp
          ring
        rw [harg, Real.cos_pi]
        norm_num
      · rw [if_neg (not_le.mpr hAl), if_pos hB]
    · rcases le_or_lt x s1 with hC | hC
      · have r1 : ¬(x ≤ s0 - (s1 - s0) / 2) := by push_neg; linarith
        rw [if_neg r1, if_neg (not_le.mpr hB), if_pos hC]
        rcases eq_or_lt_of_le hC with hCe | hCl
        · subst hCe
          rw [if_pos ⟨le_refl x, by linarith⟩]
          have harg : 2 * Real.pi * (x - x) / (x - s0) = 0 := by
            rw [sub_self, mul_zero, zero_div]
          rw [harg, Real.cos_zero]
          norm_num
        · have c1 : ¬(s1 ≤ x ∧ x ≤ s1 + (s1 - s0) / 2) :=
            fun hc => absurd hc.1 (not_le.mpr hCl)
          have c2 : ¬(s0 - (s1 - s0) / 2 ≤ x ∧ x ≤ s0) :=
            fun hc => absurd hc.2 (not_le.mpr hB)
          rw [if_neg c1, if_neg c2, if_pos ⟨hB, hCl⟩]
      · rcases le_or_lt x (s1 + (s1 - s0) / 2) with hD | hD
        · rw [if_pos ⟨hC.le, hD⟩]
          have r1 : ¬(x ≤ s0 - (s1 - s0) / 2) := by push_neg; linarith
          have r2 : ¬(x ≤ s0) := by push_neg; linarith
          rw [if_neg r1, if_neg r2, if_neg (not_le.mpr hC), if_pos hD]
        · have c1 : ¬(s1 ≤ x ∧ x ≤ s1 + (s1 - s0) / 2) :=
            fun hc => absurd hc.2 (not_le.mpr hD)
          have c2 : ¬(s0 - (s1 - s0) / 2 ≤ x ∧ x ≤ s0) := fun hc => by linarith [hc.2]
          have c3 : ¬(s0 < x ∧ x < s1) := fun hc => by linarith [hc.2]
          rw [if_neg c1, if_neg c2, if_neg c3]
          have r1 : ¬(x ≤ s0 - (s1 - s0) / 2) := by push_neg; linarith
          have r2 : ¬(x ≤ s0) := by push_neg; linarith
          rw [if_neg r1, if_neg r2, if_neg (not_le.mpr hC), if_neg (not_le.mpr hD)]

lemma width_shape_eq_taper (wmin wmax : ℝ) (h0 : 0 < wmin) (h2 : 2 * wmin < wmax)
    (y : ℝ) : width_shape y wmin wmax = widthTaper wmin wmax y := by
  have hW : (0 : ℝ) < wmax := by linarith
  simp only [width_shape, widthTaper]
  rcases lt_or_le y wmin with hA | hA
  · have c1 : ¬(wmax ≤ y ∧ y ≤ 3 * wmax) := fun hc => by linarith [hc.1]
    have c2 : ¬(wmin ≤ y ∧ y ≤ 2 * wmin) := fun hc => by linarith [hc.1]
    have c3 : ¬(2 * wmin < y ∧ y < wmax) := fun hc => by linarith [hc.1]
    rw [if_neg c1, if_neg c2, if_neg c3, if_pos hA.le]
  · rcases le_or_lt y (2 * wmin) with hB | hB
    · have c1 : ¬(wmax ≤ y ∧ y ≤ 3 * wmax) := fun hc => by linarith [hc.1]
      rw [if_neg c1, if_pos ⟨hA, hB⟩]
      rcases eq_or_lt_of_le hA with hAe | hAl
      · rw [if_pos hAe.ge, ← hAe]
        have harg : Real.pi * (wmin - wmin) / wmin = 0 := by
          rw [sub_self, mul_zero, zero_div]
        rw [harg, Real.cos_zero]
        norm_num
      · rw [if_neg (not_le.mpr hAl), if_pos hB]
    · rcases le_or_lt y wmax with hC | hC
      · have r1 : ¬(y ≤ wmin) := by push_neg; linarith
        rw [if_neg r1, if_neg (not_le.mpr hB), if_pos hC]
        rcases eq_or_lt_of_le hC with hCe | hCl
        · subst hCe
          rw [if_pos ⟨le_refl y, by linarith⟩]
          have harg : Real.pi / 2 * (y - y) / y = 0 := by
            rw [sub_self, mul_zero, zero_div]
          rw [harg, Real.cos_zero]
          norm_num
        · have c1 : ¬(wmax ≤ y ∧ y ≤ 3 * wmax) := fun hc => absurd hc.1 (not_le.mpr hCl)
          have c2 : ¬(wmin ≤ y ∧ y ≤ 2 * wmin) := fun hc => absurd hc.2 (not_le.mpr hB)
          rw [if_neg c1, if_neg c2, if_pos ⟨hB, hCl⟩]
      · rcases le_or_lt y (3 * wmax) with hD | hD
        · rw [if_pos ⟨hC.le, hD⟩]
          have r1 : ¬(y ≤ wmin) := by push_neg; linarith
          have r2 : ¬(y ≤ 2 * wmin) := by push_neg; linarith
          rw [if_neg r1, if_neg r2, if_neg (not_le.mpr hC), if_pos hD]
        · have c1 : ¬(wmax ≤ y ∧ y ≤ 3 * wmax) := fun hc => absurd hc.2 (not_le.mpr hD)
          have c2 : ¬(wmin ≤ y ∧ y ≤ 2 * wmin) := fun hc => by linarith [hc.2]
          have c3 : ¬(2 * wmin < y ∧ y < wmax) := fun hc => by linarith [hc.2]
          rw [if_neg c1, if_neg c2, if_neg c3]
          have r1 : ¬(y ≤ wmin) := by push_neg; linarith
          have r2 : ¬(y ≤ 2 * wmin) := by push_neg; linarith
          rw [if_neg r1, if_neg r2, if_neg (not_le.mpr hC), if_neg (not_le.mpr hD)]

lemma continuous_thresholdTaper (s0 s1 : ℝ) (h : s0 < s1) :
    Continuous (thresholdTaper s0 s1) := by
  have hsp : (0 : ℝ) < s1 - s0 := sub_pos.mpr h
  have hne : s1 - s0 ≠ 0 := ne_of_gt hsp
  unfold thresholdTaper
  refine Continuous.if_le continuous_const ?_ continuous_id continuous_const ?_
  · refine Continuous.if_le (by fun_prop) ?_ continuous_id continuous_const ?_
    · refine Continuous.if_le continuous_const ?_ continuous_id continuous_const ?_
      · refine Continuous.if_le (by fun_prop) continuous_const continuous_id continuous_const ?_
        intro x hx
        rw [hx]
        have harg : 2 * Real.pi * (s1 + (s1 - s0) / 2 - s1) / (s1 - s0) = Real.pi := by
          field_simp
          ring
        rw [harg, Real.cos_pi]
        norm_num
      · intro x hx
        rw [if_pos (by rw [hx]; linarith : x ≤ s1 + (s1 - s0) / 2), hx]
        have harg : 2 * Real.pi * (s1 - s1) / (s1 - s0) = 0 := by
          rw [sub_self, mul_zero, zero_div]
        rw [harg, Real.cos_zero]
        norm_num
    · intro x hx
      rw [if_pos (by rw [hx]; linarith : x ≤ s1), hx]
      have harg : 2 * Real.pi * (s0 - s0) / (s1 - s0) = 0 := by
        rw [sub_self, mul_zero, zero_div]
      rw [harg, Real.cos_zero]
      norm_num
  · intro x hx
    rw [if_pos (by rw [hx]; linarith : x ≤ s0), hx]
    have harg : 2 * Real.pi * (s0 - (s0 - (s1 - s0) / 2)) / (s1 - s0) = Real.pi := by
      field_simp
      ring
    rw [harg, Real.cos_pi]
    norm_num

lemma continuous_widthTaper (wmin wmax : ℝ) (h0 : 0 < wmin) (h2 : 2 * wmin < wmax) :
    Continuous (widthTaper wmin wmax) := by
  have hW : (0 : ℝ) < wmax := by linarith
  have hne : wmin ≠ 0 := ne_of_gt h0
  have hWne : wmax ≠ 0 := ne_of_gt hW
  unfold widthTaper
  refine Continuous.if_le continuous_const ?_ continuous_id continuous_const ?_
  · refine Continuous.if_le (by fun_prop) ?_ continuous_id continuous_const ?_
    · refine Continuous.if_le continuous_const ?_ continuous_id continuous_const ?_
      · refine Continuous.if_le (by fun_prop) continuous_const continuous_id continuous_const ?_
        intro y hy
        rw [hy]
        have harg : Real.pi / 2 * (3 * wmax - wmax) / wmax = Real.pi := by
          rw [div_eq_iff hWne]
          ring
        rw [harg, Real.cos_pi]
        norm_num
      · intro y hy
        rw [if_pos (by rw [hy]; linarith : y ≤ 3 * wmax), hy]
        have harg : Real.pi / 2 * (wmax - wmax) / wmax = 0 := by
          rw [sub_self, mul_zero, zero_div]
        rw [harg, Real.cos_zero]
        norm_num
    · intro y hy
      rw [if_pos (by rw [hy]; linarith : y ≤ wmax), hy]
      have harg : Real.pi * (2 * wmin - wmin) / wmin = Real.pi := by
        rw [div_eq_iff hne]
        ring
      rw [harg, Real.cos_pi]
      norm_num
  · intro y hy
    rw [if_pos (by rw [hy]; linarith : y ≤ 2 * wmin), hy]
    have harg : Real.pi * (wmin - wmin) / wmin = 0 := by
      rw [sub_self, mul_zero, zero_div]
    rw [harg, Real.cos_zero]
    norm_num

/-- C3: for every stimulus range `(s0, s1)` with `s0 < s1` and every `x`,
`prior_threshold` returns exactly 1 on the open interior `(s0, s1)`, the
raised-cosine `(1 + cos(2π(s0-x)/sp))/2` on `[s0 - sp/2, s0]`, the symmetric
raised-cosine `(1 + cos(2π(x-s1)/sp))/2` on `[s1, s1 + sp/2]`, and 0
elsewhere (`sp = s1 - s0`). -/
theorem prior_threshold_piecewise (s0 s1 x : ℝ) (h : s0 < s1) :
    (s0 < x ∧ x < s1 → prior_threshold x s0 s1 = 1) ∧
    (s0 - (s1 - s0) / 2 ≤ x ∧ x ≤ s0 →
      prior_threshold x s0 s1 = (1 + Real.cos (2 * Real.pi * (s0 - x) / (s1 - s0))) / 2) ∧
    (s1 ≤ x ∧ x ≤ s1 + (s1 - s0) / 2 →
      prior_threshold x s0 s1 = (1 + Real.cos (2 * Real.pi * (x - s1) / (s1 - s0))) / 2) ∧
    (¬(s0 < x ∧ x < s1) ∧ ¬(s0 - (s1 - s0) / 2 ≤ x ∧ x ≤ s0) ∧
        ¬(s1 ≤ x ∧ x ≤ s1 + (s1 - s0) / 2) →
      prior_threshold x s0 s1 = 0) := by
  simp only [prior_threshold]
  refine ⟨fun hx => ?_, fun hx => ?_, fun hx => ?_, fun hx => ?_⟩
  · have hA : ¬(s1 ≤ x ∧ x ≤ s1 + (s1 - s0) / 2) := fun hc => absurd hc.1 (not_le.mpr hx.2)
    have hB : ¬(s0 - (s1 - s0) / 2 ≤ x ∧ x ≤ s0) := fun hc => absurd hc.2 (not_le.mpr hx.1)
    rw [if_neg hA, if_neg hB, if_pos hx]
  · have hA : ¬(s1 ≤ x ∧ x ≤ s1 + (s1 - s0) / 2) :=
      fun hc => absurd (hx.2.trans_lt h) (not_lt.mpr hc.1)
    rw [if_neg hA, if_pos hx]
  · rw [if_pos hx]
  · obtain ⟨hi, hl, hr⟩ := hx
    rw [if_neg hr, if_neg hl, if_neg hi]

/-- Witness for C3 at `(s0, s1) = (0, 2)`, `x = 1`. -/
theorem prior_threshold_piecewise_witness :
    (0 : ℝ) < 2 ∧ prior_threshold 1 0 2 = 1 :=
  ⟨by norm_num,
    (prior_threshold_piecewise 0 2 1 (by norm_num)).1 ⟨by norm_num, by norm_num⟩⟩

/-- C4 counterexample: with `wmin = 1`, `wmax = 3/2`, the rescaled value
`y = 2` lies in the rise region `[wmin, 2·wmin]`, yet the prior does not
equal the claimed rise formula `(1 − cos(π(y-wmin)/wmin))/2` there: the code
applies the fall-taper mask `[wmax, 3·wmax]` after the rise mask, so the fall
value is what is returned where the two regions overlap. -/
theorem prior_width_claim_counterexample :
    (1 : ℝ) ≤ 2 ∧ (2 : ℝ) ≤ 2 * 1 ∧
      width_shape 2 1 (3 / 2) ≠ (1 - Real.cos (Real.pi * (2 - 1) / 1)) / 2 := by
  refine ⟨by norm_num, by norm_num, ?_⟩
  have harg : Real.pi / 2 * (2 - 3 / 2) / (3 / 2) = Real.pi / 6 := by ring
  have harg' : Real.pi * (2 - 1) / 1 = Real.pi := by ring
  have hval : width_shape 2 1 (3 / 2) = (1 + Real.cos (Real.pi / 6)) / 2 := by
    simp only [width_shape]
    rw [if_pos ⟨by norm_num, by norm_num⟩, harg]
  rw [hval, harg', Real.cos_pi_div_six, Real.cos_pi]
  have h3 : Real.sqrt 3 < 2 := by
    nlinarith [Real.sq_sqrt (show (0 : ℝ) ≤ 3 by norm_num), Real.sqrt_nonneg 3]
  intro hcontra
  nlinarith [hcontra]

/-- C4 (amended): `prior_width` rescales `x` by the factor
`(norminv 0.95 - norminv 0.05) / (norminv (1-alpha) - norminv alpha)` and
applies the cosine-tapered shape to the rescaled `y`; the shape is the fall
taper on `[wmax, 3·wmax]`, the rise taper on `[wmin, 2·wmin]` *except where
the fall region overlaps it* (the fall mask is applied last and overwrites
the rise there), 1 on `(2·wmin, wmax)`, and 0 elsewhere. -/
theorem prior_width_piecewise_amended (norminv : ℝ → ℝ) (x alpha wmin wmax : ℝ) :
    prior_width norminv x alpha wmin wmax
        = width_shape (x * Cfactor norminv alpha) wmin wmax ∧
    ∀ y : ℝ,
      (wmax ≤ y ∧ y ≤ 3 * wmax →
        width_shape y wmin wmax = (1 + Real.cos (Real.pi / 2 * (y - wmax) / wmax)) / 2) ∧
      (wmin ≤ y ∧ y ≤ 2 * wmin ∧ ¬(wmax ≤ y ∧ y ≤ 3 * wmax) →
        width_shape y wmin wmax = (1 - Real.cos (Real.pi * (y - wmin) / wmin)) / 2) ∧
      (2 * wmin < y ∧ y < wmax → width_shape y wmin wmax = 1) ∧
      (¬(wmax ≤ y ∧ y ≤ 3 * wmax) ∧ ¬(wmin ≤ y ∧ y ≤ 2 * wmin) ∧
          ¬(2 * wmin < y ∧ y < wmax) →
        width_shape y wmin wmax = 0) := by
  refine ⟨rfl, fun y => ?_⟩
  simp only [width_shape]
  refine ⟨fun hy => ?_, fun hy => ?_, fun hy => ?_, fun hy => ?_⟩
  · rw [if_pos hy]
  · rw [if_neg hy.2.2, if_pos ⟨hy.1, hy.2.1⟩]
  · have hA : ¬(wmax ≤ y ∧ y ≤ 3 * wmax) := fun hc => absurd hc.1 (not_le.mpr hy.2)
    have hB : ¬(wmin ≤ y ∧ y ≤ 2 * wmin) := fun hc => absurd hc.2 (not_le.mpr hy.1)
    rw [if_neg hA, if_neg hB, if_pos hy]
  · obtain ⟨h1, h2, h3⟩ := hy
    rw [if_neg h1, if_neg h2, if_neg h3]

/-- Witness for C4's amended theorem: at `wmin = 1`, `wmax = 3/2`, `y = 2`
(in the fall region) the fall formula is returned. -/
theorem prior_width_piecewise_amended_witness :
    width_shape 2 1 (3 / 2) = (1 + Real.cos (Real.pi / 2 * (2 - 3 / 2) / (3 / 2))) / 2 :=
  ((prior_width_piecewise_amended (fun p => p) 0 0 1 (3 / 2)).2 2).1 ⟨by norm_num, by norm_num⟩

/-! ### Helper lemmas about the validation chain -/

lemma PyFloat.bad_false_iff (v : PyFloat) :
    v.bad = false ↔ v.isFinite = true ∧ v.nonneg = true := by
  cases v <;> simp [PyFloat.bad, PyFloat.isFinite, PyFloat.nonneg, not_lt]

lemma PyFloat.strictlyPos_spec (v : PyFloat) (h : v.strictlyPos = true) :
    v.bad = false ∧ v.isZero = false := by
  cases v <;> simp [PyFloat.strictlyPos, PyFloat.bad, PyFloat.isZero] at h ⊢
  exact ⟨by linarith, by linarith⟩

lemma foldl_stepCheck_error (rs : List (Except String (Option String))) (e : String) :
    rs.foldl stepCheck (Except.error e) = Except.error e := by
  induction rs with
  | nil => rfl
  | cons r t ih =>
    rw [List.foldl_cons]
    exact ih

lemma raisesB_foldl (rs : List (Except String (Option String))) :
    ∀ ws : List String, raisesB (rs.foldl stepCheck (Except.ok ws)) = rs.any isErrS := by
  induction rs with
  | nil => intro ws; rfl
  | cons r t ih =>
    intro ws
    cases r with
    | error e =>
      rw [List.foldl_cons]
      show raisesB (t.foldl stepCheck (Except.error e)) = _
      rw [foldl_stepCheck_error]
      simp [raisesB, isErrS]
    | ok w? =>
      cases w? with
      | none =>
        rw [List.foldl_cons]
        show raisesB (t.foldl stepCheck (Except.ok ws)) = _
        rw [ih ws]
        simp [isErrS]
      | some w =>
        rw [List.foldl_cons]
        show raisesB (t.foldl stepCheck (Except.ok (ws ++ [w]))) = _
        rw [ih (ws ++ [w])]
        simp [isErrS]

lemma foldl_stepCheck_ok (rs : List (Except String (Option String)))
    (h : ∀ r ∈ rs, isErrS r = false) :
    ∀ ws : List String,
      rs.foldl stepCheck (Except.ok ws) = Except.ok (ws ++ rs.filterMap warnOf) := by
  induction rs with
  | nil => intro ws; simp
  | cons r t ih =>
    intro ws
    have ht : ∀ r ∈ t, isErrS r = false := fun r hr => h r (List.mem_cons_of_mem _ hr)
    cases r with
    | error e => exact absurd (h _ (List.mem_cons_self _ _)) (by simp [isErrS])
    | ok w? =>
      cases w? with
      | none =>
        rw [List.foldl_cons]
        show t.foldl stepCheck (Except.ok ws) = _
        rw [ih ht ws]
        simp [warnOf, List.filterMap_cons]
      | some w =>
        rw [List.foldl_cons]
        show t.foldl stepCheck (Except.ok (ws ++ [w])) = _
        rw [ih ht (ws ++ [w])]
        simp [warnOf, List.filterMap_cons]

lemma testForWarnings_error_of_bad {tr : List PyFloat} {v : PyFloat} (hv : v ∈ tr)
    (hbad : v.bad = true) (p : String) : isErrS (testForWarnings tr p) = true := by
  unfold testForWarnings
  by_cases hf : tr.all PyFloat.isFinite
  · by_cases hn : tr.all PyFloat.nonneg
    · exfalso
      have h1 := List.all_eq_true.mp hf v hv
      have h2 := List.all_eq_true.mp hn v hv
      rw [(PyFloat.bad_false_iff v).mpr ⟨h1, h2⟩] at hbad
      exact Bool.false_ne_true hbad
    · rw [if_pos hf, if_neg hn]
      rfl
  · rw [if_neg hf]
    rfl

lemma testForWarnings_not_error {tr : List PyFloat} (h : ∀ v ∈ tr, v.bad = false)
    (p : String) : isErrS (testForWarnings tr p) = false := by
  have hf : tr.all PyFloat.isFinite = true :=
    List.all_eq_true.mpr fun v hv => ((PyFloat.bad_false_iff v).mp (h v hv)).1
  have hn : tr.all PyFloat.nonneg = true :=
    List.all_eq_true.mpr fun v hv => ((PyFloat.bad_false_iff v).mp (h v hv)).2
  unfold testForWarnings
  rw [if_pos hf, if_pos hn]
  by_cases hz : tr.any PyFloat.isZero
  · rw [if_pos hz]
    rfl
  · rw [if_neg hz]
    rfl

lemma testForWarnings_ok_some {tr : List PyFloat} (hf : tr.all PyFloat.isFinite = true)
    (hn : tr.all PyFloat.nonneg = true) (hz : tr.any PyFloat.isZero = true) (p : String) :
    testForWarnings tr p
      = Except.ok (some ("the prior you provided for " ++ p ++ " returns zeros")) := by
  unfold testForWarnings
  rw [if_pos hf, if_pos hn, if_pos hz]

lemma testForWarnings_ok_none {tr : List PyFloat} (hf : tr.all PyFloat.isFinite = true)
    (hn : tr.all PyFloat.nonneg = true) (hz : tr.any PyFloat.isZero = false) (p : String) :
    testForWarnings tr p = Except.ok none := by
  unfold testForWarnings
  rw [if_pos hf, if_pos hn, if_neg (by simp [hz])]

lemma specColumn_eq (data : List (ℝ × ℝ × ℝ)) (b : Bool) :
    ((if b then data.map (fun r => (Real.log r.1, r.2.1, r.2.2)) else data).map fun r => r.1)
      = specColumn data b := by
  cases b
  · rfl
  · simp [specColumn, List.map_map, Function.comp]

lemma checkPriors_fst (data : List (ℝ × ℝ × ℝ)) (options : CheckOptions) :
    (checkPriors data options).1 = foldStep
      [testForWarnings (priorProbeOutputs data options 0) "the threshold",
       testForWarnings (priorProbeOutputs data options 1) "the width",
       testForWarnings (priorProbeOutputs data options 2) "lambda",
       testForWarnings (priorProbeOutputs data options 3) "gamma",
       testForWarnings (priorProbeOutputs data options 4) "eta"] := by
  simp only [checkPriors]
  rw [specColumn_eq data options.logspace]
  rfl

lemma sortedUnique_pair : sortedUnique [(1 : ℝ), 2] = [1, 2] := by
  unfold sortedUnique
  have h1 : List.insertionSort (· ≤ ·) [(1 : ℝ), 2] = [1, 2] := by
    simp [List.insertionSort, List.orderedInsert]
  rw [h1, List.dedup_cons_of_not_mem (by norm_num), List.dedup_cons_of_not_mem (by norm_num),
    List.dedup_nil]

/-! ### Helper lemmas about the trapezoid quadrature -/

lemma sum_zipWith_avg : ∀ (l1 l2 : List ℝ), l1.length = l2.length →
    (List.zipWith (fun u v => (u + v) / 2) l1 l2).sum = (l1.sum + l2.sum) / 2
  | [], [], _ => by simp
  | [], _ :: _, h => by simp at h
  | _ :: _, [], h => by simp at h
  | a :: t1, b :: t2, h => by
    simp only [List.zipWith_cons_cons, List.sum_cons]
    rw [sum_zipWith_avg t1 t2 (by simpa using h)]
    ring

lemma convHalf_sum (d : List ℝ) : (convHalf d).sum = d.sum := by
  rw [convHalf, sum_zipWith_avg _ _ (by simp)]
  simp [List.sum_append]

lemma diffs_cons_sum : ∀ (l : List ℝ) (a : ℝ), (diffs (a :: l)).sum = l.getLastD a - a
  | [], a => by simp [diffs]
  | b :: t, a => by
    have e : diffs (a :: b :: t) = (b - a) :: diffs (b :: t) := rfl
    rw [e, List.sum_cons, diffs_cons_sum t b, List.getLastD_cons]
    ring

lemma getLastD_map_range (g : ℕ → ℝ) (n : ℕ) (d : ℝ) :
    ((List.range (n + 1)).map g).getLastD d = g n := by
  rw [List.range_succ, List.map_append]
  exact List.getLastD_concat _ _ _

lemma diffs_linspace_sum (a b : ℝ) : (diffs (linspace a b 1000)).sum = b - a := by
  have e : linspace a b 1000
      = (fun i : ℕ => a + (b - a) * (i : ℝ) / ((1000 : ℝ) - 1)) 0
        :: (List.range 999).map
            ((fun i : ℕ => a + (b - a) * (i : ℝ) / ((1000 : ℝ) - 1)) ∘ Nat.succ) := by
    rw [linspace, show (1000 : ℕ) = 999 + 1 from rfl, List.range_succ_eq_map,
      List.map_cons, List.map_map]
    norm_num
  rw [e, diffs_cons_sum, show (999 : ℕ) = 998 + 1 from rfl,
    getLastD_map_range ((fun i : ℕ => a + (b - a) * (i : ℝ) / ((1000 : ℝ) - 1)) ∘ Nat.succ) 998]
  simp only [Function.comp_apply, Nat.succ_eq_add_one, Nat.cast_ofNat, Nat.cast_zero]
  push_cast
  field_simp
  ring

lemma length_linspace (a b : ℝ) (n : ℕ) : (linspace a b n).length = n := by
  simp [linspace]

lemma length_diffs (l : List ℝ) : (diffs l).length = l.length - 1 := by
  rw [diffs, List.length_zipWith, List.length_tail]
  omega

lemma length_convHalf (d : List ℝ) : (convHalf d).length = d.length + 1 := by
  rw [convHalf, List.length_zipWith]
  simp

lemma sum_zipWith_constL : ∀ (x w : List ℝ) (c : ℝ), x.length = w.length →
    (List.zipWith (· * ·) (x.map fun _ => c) w).sum = c * w.sum
  | [], [], _, _ => by simp
  | [], _ :: _, _, h => by simp at h
  | _ :: _, [], _, h => by simp at h
  | a :: t, b :: u, c, h => by
    simp only [List.map_cons, List.zipWith_cons_cons, List.sum_cons]
    rw [sum_zipWith_constL t u c (by simpa using h)]
    ring

lemma priorIntegral_const (c lo hi : ℝ) : priorIntegral (fun _ => c) lo hi = c * (hi - lo) := by
  rw [priorIntegral, sum_zipWith_constL _ _ _ (by
    simp [length_linspace, length_convHalf, length_diffs])]
  rw [convHalf_sum, diffs_linspace_sum]

lemma sum_zipWith_divL : ∀ (y w : List ℝ) (I : ℝ),
    (List.zipWith (· * ·) (y.map (· / I)) w).sum = (List.zipWith (· * ·) y w).sum / I
  | [], _, _ => by simp
  | _ :: _, [], _ => by simp
  | a :: t, b :: u, I => by
    simp only [List.map_cons, List.zipWith_cons_cons, List.sum_cons]
    rw [sum_zipWith_divL t u I]
    ring

lemma priorIntegral_normalize (f : ℝ → ℝ) (I lo hi : ℝ) :
    priorIntegral (normalizeFunction f I) lo hi = priorIntegral f lo hi / I := by
  rw [priorIntegral, priorIntegral]
  have e : (linspace lo hi 1000).map (normalizeFunction f I)
      = ((linspace lo hi 1000).map f).map (· / I) := by
    rw [List.map_map]
    rfl
  rw [e, sum_zipWith_divL]

lemma priorIntegral_congr {f g : ℝ → ℝ} (h : ∀ x, f x = g x) (lo hi : ℝ) :
    priorIntegral f lo hi = priorIntegral g lo hi := by
  rw [priorIntegral, priorIntegral, funext h]

/-- C9: for a valid stimulus range (`s0 < s1`) and valid width bounds
(`0 < wmin`, `2·wmin < wmax`), both priors only produce values in `[0, 1]`
(hence finite), both are continuous in their argument (in particular at every
taper boundary), and `prior_threshold` evaluates to 0 at `x = s0 - sp/2` and
to 1 at `x = s0`. -/
theorem priors_bounded_and_continuous (norminv : ℝ → ℝ) (s0 s1 alpha wmin wmax : ℝ)
    (hs : s0 < s1) (hwmin : 0 < wmin) (hww : 2 * wmin < wmax) :
    (∀ x, 0 ≤ prior_threshold x s0 s1 ∧ prior_threshold x s0 s1 ≤ 1) ∧
    (∀ x, 0 ≤ prior_width norminv x alpha wmin wmax ∧
      prior_width norminv x alpha wmin wmax ≤ 1) ∧
    Continuous (fun x => prior_threshold x s0 s1) ∧
    Continuous (fun x => prior_width norminv x alpha wmin wmax) ∧
    prior_threshold (s0 - (s1 - s0) / 2) s0 s1 = 0 ∧
    prior_threshold s0 s0 s1 = 1 := by
  have hsp : (0 : ℝ) < s1 - s0 := sub_pos.mpr hs
  refine ⟨fun x => prior_threshold_bounds x s0 s1,
    fun x => width_shape_bounds _ wmin wmax, ?_, ?_, ?_, ?_⟩
  · exact (continuous_thresholdTaper s0 s1 hs).congr
      fun x => (prior_threshold_eq_taper s0 s1 hs x).symm
  · have hcw : Continuous (fun y => width_shape y wmin wmax) :=
      (continuous_widthTaper wmin wmax hwmin hww).congr
        fun y => (width_shape_eq_taper wmin wmax hwmin hww y).symm
    exact hcw.comp (continuous_mul_right (Cfactor norminv alpha))
  · rw [prior_threshold_eq_taper s0 s1 hs]
    simp only [thresholdTaper]
    rw [if_pos (le_refl _)]
  · rw [prior_threshold_eq_taper s0 s1 hs]
    simp only [thresholdTaper]
    rw [if_neg (by push_neg; linarith), if_pos (le_refl _)]
    have harg : 2 * Real.pi * (s0 - s0) / (s1 - s0) = 0 := by
      rw [sub_self, mul_zero, zero_div]
    rw [harg, Real.cos_zero]
    norm_num

/-- Witness for C9 at `(s0, s1) = (0, 2)`, `wmin = 1`, `wmax = 3`. -/
theorem priors_bounded_and_continuous_witness :
    prior_threshold (0 - (2 - 0) / 2) 0 2 = 0 ∧ prior_threshold 0 0 2 = 1 :=
  ⟨(priors_bounded_and_continuous (fun p => p) 0 2 0 1 3 (by norm_num) (by norm_num)
      (by norm_num)).2.2.2.2.1,
    (priors_bounded_and_continuous (fun p => p) 0 2 0 1 3 (by norm_num) (by norm_num)
      (by norm_num)).2.2.2.2.2⟩

/-- C2 counterexample: with all five priors identically 0 over borders
`(0, 1)`, the computed integral is 0, the "normalized" prior is the original
divided by that zero integral, and re-integrating it by the same rule does
not yield 1.0 within 1e-6. -/
theorem normalizePriors_claim_counterexample :
    (0 : ℝ) < 1 ∧
      ¬ |priorIntegral
            ((normalizePriors (List.replicate 5 fun _ : ℝ => (0 : ℝ))
                (List.replicate 5 ((0 : ℝ), (1 : ℝ)))).getD 0 (fun _ => 0)) 0 1 - 1|
          ≤ (1e-6 : ℝ) := by
  refine ⟨by norm_num, ?_⟩
  have hlen : 0 < (normalizePriors (List.replicate 5 fun _ : ℝ => (0 : ℝ))
      (List.replicate 5 ((0 : ℝ), (1 : ℝ)))).length := by
    simp [normalizePriors]
  rw [List.getD_eq_getElem _ _ hlen]
  rw [show (normalizePriors (List.replicate 5 fun _ : ℝ => (0 : ℝ))
      (List.replicate 5 ((0 : ℝ), (1 : ℝ))))[0]
      = normalizeFunction (fun _ : ℝ => (0 : ℝ))
          (priorIntegral (fun _ : ℝ => (0 : ℝ)) 0 1) by
    simp only [normalizePriors]
    rw [List.getElem_zipWith]
    simp]
  rw [priorIntegral_normalize, priorIntegral_const]
  norm_num

/-- C2 (amended): `normalizePriors` keeps the five-parameter order; over
non-degenerate borders (`lo < hi`) the returned function is the original
prior divided by the 1000-point trapezoid integral, and — provided that
integral is nonzero — re-integrating the returned function by the same rule
gives 1.0 within 1e-6; over borders with `lo = hi` the returned function is
the constant 1. -/
theorem normalizePriors_spec (priors : List (ℝ → ℝ)) (borders : List (ℝ × ℝ))
    (hp : priors.length = 5) (hb : borders.length = 5) :
    (normalizePriors priors borders).length = 5 ∧
    ∀ (i : ℕ) (h1 : i < priors.length) (h2 : i < borders.length)
      (h3 : i < (normalizePriors priors borders).length),
      ((borders[i].1 < borders[i].2 →
        (normalizePriors priors borders)[i]
            = normalizeFunction priors[i]
                (priorIntegral priors[i] borders[i].1 borders[i].2) ∧
        (priorIntegral priors[i] borders[i].1 borders[i].2 ≠ 0 →
          |priorIntegral (normalizePriors priors borders)[i] borders[i].1 borders[i].2 - 1|
            ≤ (1e-6 : ℝ))) ∧
      (borders[i].1 = borders[i].2 →
        (normalizePriors priors borders)[i] = fun _ => 1)) := by
  constructor
  · simp [normalizePriors, hp, hb]
  · intro i h1 h2 h3
    have helt : (normalizePriors priors borders)[i]
        = if borders[i].1 < borders[i].2 then
            normalizeFunction priors[i] (priorIntegral priors[i] borders[i].1 borders[i].2)
          else fun _ => (1 : ℝ) := by
      simp only [normalizePriors]
      rw [List.getElem_zipWith]
    constructor
    · intro hlt
      rw [helt, if_pos hlt]
      refine ⟨rfl, fun hI => ?_⟩
      rw [priorIntegral_normalize, div_self hI]
      norm_num
    · intro heq
      rw [helt, if_neg (by rw [heq]; exact lt_irrefl _)]

/-- Witness for C2's amended theorem: five constant-1 priors over borders
`(0, 1)`; the integral is 1 and re-integration yields exactly 1. -/
theorem normalizePriors_spec_witness :
    |priorIntegral
        ((normalizePriors (List.replicate 5 fun _ : ℝ => (1 : ℝ))
            (List.replicate 5 ((0 : ℝ), (1 : ℝ)))).getD 0 (fun _ => 0)) 0 1 - 1|
      ≤ (1e-6 : ℝ) := by
  have T := normalizePriors_spec (List.replicate 5 fun _ : ℝ => (1 : ℝ))
      (List.replicate 5 ((0 : ℝ), (1 : ℝ))) (by simp) (by simp)
  have h1 : 0 < (List.replicate 5 fun _ : ℝ => (1 : ℝ)).length := by simp
  have h2 : 0 < (List.replicate 5 ((0 : ℝ), (1 : ℝ))).length := by simp
  have h3 : 0 < (normalizePriors (List.replicate 5 fun _ : ℝ => (1 : ℝ))
      (List.replicate 5 ((0 : ℝ), (1 : ℝ)))).length := by simp [normalizePriors]
  have key := ((T.2 0 h1 h2 h3).1 (by simp)).2
  rw [List.getD_eq_getElem _ _ h3]
  refine ?_
  have hI : priorIntegral (List.replicate 5 fun _ : ℝ => (1 : ℝ))[0]
      (List.replicate 5 ((0 : ℝ), (1 : ℝ)))[0].1
      (List.replicate 5 ((0 : ℝ), (1 : ℝ)))[0].2 ≠ 0 := by
    simp only [List.getElem_replicate]
    rw [priorIntegral_const]
    norm_num
  have := key hI
  simpa using this

/-- C5: `checkPriors` raises whenever any of the five priors produces a
non-finite or negative output over its 25 probe values; it completes without
raising but with a warning when some output is exactly zero while all outputs
are finite and non-negative; and it completes silently (no error, no warning)
when every output of every prior is finite and strictly positive.  The data
is assumed to contain at least two distinct stimulus levels (otherwise the
code crashes in `np.min` on an empty difference array before probing). -/
theorem checkPriors_validation (data : List (ℝ × ℝ × ℝ)) (options : CheckOptions)
    (hdistinct : 2 ≤ (sortedUnique (specColumn data options.logspace)).length) :
    ((∃ i : Fin 5, ∃ v ∈ priorProbeOutputs data options i, v.bad = true) →
        raisesB (checkPriors data options).1 = true) ∧
    ((∀ i : Fin 5, ∀ v ∈ priorProbeOutputs data options i, v.bad = false) →
      (∃ i : Fin 5, ∃ v ∈ priorProbeOutputs data options i, v.isZero = true) →
        raisesB (checkPriors data options).1 = false ∧
          warnsB (checkPriors data options).1 = true) ∧
    ((∀ i : Fin 5, ∀ v ∈ priorProbeOutputs data options i, v.strictlyPos = true) →
      (checkPriors data options).1 = Except.ok []) := by
  refine ⟨?_, ?_, ?_⟩
  · rintro ⟨i, v, hv, hbad⟩
    rw [checkPriors_fst]
    simp only [foldStep]
    rw [raisesB_foldl, List.any_eq_true]
    refine ⟨testForWarnings (priorProbeOutputs data options i) (paramName i), ?_,
      testForWarnings_error_of_bad hv hbad _⟩
    fin_cases i <;> simp [paramName]
  · rintro hgood ⟨i, v, hv, hz⟩
    have hok : ∀ r ∈
        [testForWarnings (priorProbeOutputs data options 0) "the threshold",
         testForWarnings (priorProbeOutputs data options 1) "the width",
         testForWarnings (priorProbeOutputs data options 2) "lambda",
         testForWarnings (priorProbeOutputs data options 3) "gamma",
         testForWarnings (priorProbeOutputs data options 4) "eta"],
        isErrS r = false := by
      intro r hr
      simp only [List.mem_cons, List.not_mem_nil, or_false] at hr
      rcases hr with rfl | rfl | rfl | rfl | rfl <;>
        exact testForWarnings_not_error (hgood _) _
    constructor
    · rw [checkPriors_fst]
      simp only [foldStep]
      rw [raisesB_foldl]
      simp only [List.any_eq_false]
      intro r hr
      rw [hok r hr]
      simp
    · rw [checkPriors_fst]
      simp only [foldStep]
      rw [foldl_stepCheck_ok _ hok []]
      have hf : (priorProbeOutputs data options i).all PyFloat.isFinite = true :=
        List.all_eq_true.mpr fun u hu => ((PyFloat.bad_false_iff u).mp (hgood i u hu)).1
      have hn : (priorProbeOutputs data options i).all PyFloat.nonneg = true :=
        List.all_eq_true.mpr fun u hu => ((PyFloat.bad_false_iff u).mp (hgood i u hu)).2
      have hzany : (priorProbeOutputs data options i).any PyFloat.isZero = true :=
        List.any_eq_true.mpr ⟨v, hv, hz⟩
      have hw := testForWarnings_ok_some hf hn hzany (paramName i)
      have hmem : ("the prior you provided for " ++ paramName i ++ " returns zeros") ∈
          ([testForWarnings (priorProbeOutputs data options 0) "the threshold",
            testForWarnings (priorProbeOutputs data options 1) "the width",
            testForWarnings (priorProbeOutputs data options 2) "lambda",
            testForWarnings (priorProbeOutputs data options 3) "gamma",
            testForWarnings (priorProbeOutputs data options 4) "eta"].filterMap warnOf) := by
        refine List.mem_filterMap.mpr
          ⟨testForWarnings (priorProbeOutputs data options i) (paramName i), ?_, ?_⟩
        · fin_cases i <;> simp [paramName]
        · rw [hw]
          rfl
      have hne := List.ne_nil_of_mem hmem
      revert hne
      cases ([testForWarnings (priorProbeOutputs data options 0) "the threshold",
          testForWarnings (priorProbeOutputs data options 1) "the width",
          testForWarnings (priorProbeOutputs data options 2) "lambda",
          testForWarnings (priorProbeOutputs data options 3) "gamma",
          testForWarnings (priorProbeOutputs data options 4) "eta"].filterMap warnOf) with
      | nil => intro hne; exact absurd rfl hne
      | cons a t => intro _; simp [warnsB]
  · intro hpos
    have hgood : ∀ i : Fin 5, ∀ v ∈ priorProbeOutputs data options i, v.bad = false :=
      fun i v hv => (PyFloat.strictlyPos_spec v (hpos i v hv)).1
    have hok : ∀ r ∈
        [testForWarnings (priorProbeOutputs data options 0) "the threshold",
         testForWarnings (priorProbeOutputs data options 1) "the width",
         testForWarnings (priorProbeOutputs data options 2) "lambda",
         testForWarnings (priorProbeOutputs data options 3) "gamma",
         testForWarnings (priorProbeOutputs data options 4) "eta"],
        isErrS r = false := by
      intro r hr
      simp only [List.mem_cons, List.not_mem_nil, or_false] at hr
      rcases hr with rfl | rfl | rfl | rfl | rfl <;>
        exact testForWarnings_not_error (hgood _) _
    rw [checkPriors_fst]
    simp only [foldStep]
    rw [foldl_stepCheck_ok _ hok []]
    have hnone : ∀ i : Fin 5, testForWarnings (priorProbeOutputs data options i)
        (paramName i) = Except.ok none := by
      intro i
      refine testForWarnings_ok_none
        (List.all_eq_true.mpr fun u hu => ((PyFloat.bad_false_iff u).mp (hgood i u hu)).1)
        (List.all_eq_true.mpr fun u hu => ((PyFloat.bad_false_iff u).mp (hgood i u hu)).2)
        ?_ _
      rw [List.any_eq_false]
      exact fun u hu => by
        rw [(PyFloat.strictlyPos_spec u (hpos i u hu)).2]
        simp
    have hmap : ([testForWarnings (priorProbeOutputs data options 0) "the threshold",
        testForWarnings (priorProbeOutputs data options 1) "the width",
        testForWarnings (priorProbeOutputs data options 2) "lambda",
        testForWarnings (priorProbeOutputs data options 3) "gamma",
        testForWarnings (priorProbeOutputs data options 4) "eta"].filterMap warnOf) = [] := by
      rw [List.filterMap_eq_nil_iff]
      intro r hr
      simp only [List.mem_cons, List.not_mem_nil, or_false] at hr
      rcases hr with rfl | rfl | rfl | rfl | rfl
      · rw [show "the threshold" = paramName 0 from rfl, hnone 0]; rfl
      · rw [show "the width" = paramName 1 from rfl, hnone 1]; rfl
      · rw [show "lambda" = paramName 2 from rfl, hnone 2]; rfl
      · rw [show "gamma" = paramName 3 from rfl, hnone 3]; rfl
      · rw [show "eta" = paramName 4 from rfl, hnone 4]; rfl
    rw [hmap]
    rfl

/-- Witness for C5: two distinct stimulus levels, `logspace` off, all five
priors constantly 1 — `checkPriors` completes silently. -/
theorem checkPriors_validation_witness :
    (checkPriors [((1 : ℝ), 0, 0), ((2 : ℝ), 0, 0)]
        ⟨false, fun _ _ => PyFloat.fin 1⟩).1 = Except.ok [] := by
  refine (checkPriors_validation _ _ ?_).2.2 ?_
  · have hcol : specColumn [((1 : ℝ), 0, 0), ((2 : ℝ), 0, 0)] false = [1, 2] := rfl
    rw [hcol, sortedUnique_pair]
    simp
  · intro i v hv
    simp only [priorProbeOutputs, List.mem_map] at hv
    obtain ⟨a, _, rfl⟩ := hv
    decide

/-- C6: `checkPriors` probes the five priors in the fixed order threshold,
width, lambda, gamma, eta, each at 25 evenly spaced values over the claimed
ranges: threshold over `[min - 0.4·spread, max + 0.4·spread]` of the
(possibly log-transformed) stimulus-level column, width over
`[1.1 × minimal gap between distinct sorted levels, 2.9 × spread]`, lambda
and gamma over `[0.0001, 0.9]`, eta over `[0, 0.9]`. -/
theorem checkPriors_probe_ranges (data : List (ℝ × ℝ × ℝ)) (options : CheckOptions)
    (hdistinct : 2 ≤ (sortedUnique (specColumn data options.logspace)).length) :
    (checkPriors data options).1 = foldStep
      [testForWarnings ((linspace
          (listMin (specColumn data options.logspace)
            - 0.4 * (listMax (specColumn data options.logspace)
                - listMin (specColumn data options.logspace)))
          (listMax (specColumn data options.logspace)
            + 0.4 * (listMax (specColumn data options.logspace)
                - listMin (specColumn data options.logspace))) 25).map
          (options.priors 0)) "the threshold",
       testForWarnings ((linspace
          (1.1 * listMin (diffs (sortedUnique (specColumn data options.logspace))))
          (2.9 * (listMax (specColumn data options.logspace)
              - listMin (specColumn data options.logspace))) 25).map
          (options.priors 1)) "the width",
       testForWarnings ((linspace 0.0001 0.9 25).map (options.priors 2)) "lambda",
       testForWarnings ((linspace 0.0001 0.9 25).map (options.priors 3)) "gamma",
       testForWarnings ((linspace 0 0.9 25).map (options.priors 4)) "eta"] := by
  rw [checkPriors_fst]
  rfl

/-- Witness for C6 at concrete data `[(1,0,0),(2,0,0)]` with constant priors. -/
theorem checkPriors_probe_ranges_witness :
    (checkPriors [((1 : ℝ), 0, 0), ((2 : ℝ), 0, 0)]
        ⟨false, fun _ _ => PyFloat.fin 1⟩).1 = foldStep
      [testForWarnings ((linspace
          (listMin (specColumn [((1 : ℝ), 0, 0), ((2 : ℝ), 0, 0)] false)
            - 0.4 * (listMax (specColumn [((1 : ℝ), 0, 0), ((2 : ℝ), 0, 0)] false)
                - listMin (specColumn [((1 : ℝ), 0, 0), ((2 : ℝ), 0, 0)] false)))
          (listMax (specColumn [((1 : ℝ), 0, 0), ((2 : ℝ), 0, 0)] false)
            + 0.4 * (listMax (specColumn [((1 : ℝ), 0, 0), ((2 : ℝ), 0, 0)] false)
                - listMin (specColumn [((1 : ℝ), 0, 0), ((2 : ℝ), 0, 0)] false))) 25).map
          (fun _ => PyFloat.fin 1)) "the threshold",
       testForWarnings ((linspace
          (1.1 * listMin (diffs (sortedUnique (specColumn [((1 : ℝ), 0, 0), ((2 : ℝ), 0, 0)] false))))
          (2.9 * (listMax (specColumn [((1 : ℝ), 0, 0), ((2 : ℝ), 0, 0)] false)
              - listMin (specColumn [((1 : ℝ), 0, 0), ((2 : ℝ), 0, 0)] false))) 25).map
          (fun _ => PyFloat.fin 1)) "the width",
       testForWarnings ((linspace 0.0001 0.9 25).map (fun _ => PyFloat.fin 1)) "lambda",
       testForWarnings ((linspace 0.0001 0.9 25).map (fun _ => PyFloat.fin 1)) "gamma",
       testForWarnings ((linspace 0 0.9 25).map (fun _ => PyFloat.fin 1)) "eta"] :=
  checkPriors_probe_ranges [((1 : ℝ), 0, 0), ((2 : ℝ), 0, 0)]
    ⟨false, fun _ _ => PyFloat.fin 1⟩
    (by rw [show specColumn [((1 : ℝ), 0, 0), ((2 : ℝ), 0, 0)] false = [1, 2] from rfl,
      sortedUnique_pair]
        simp)

/-- C10: when `logspace` is set, `checkPriors` replaces the stimulus-level
column by its natural log, and the caller's data holds the transformed column
after the call; when `logspace` is off the data is returned unchanged. -/
theorem checkPriors_mutates_data (data : List (ℝ × ℝ × ℝ)) (options : CheckOptions) :
    (checkPriors data options).2
      = if options.logspace then data.map (fun r => (Real.log r.1, r.2.1, r.2.2))
        else data := rfl

/-- C1 (code bug): `getStandardPriors` does append exactly five closures in
the order threshold, width, lambda, gamma, eta, but each of them resolves a
global name — `prior1`, `prior2` or `ss` — that is bound nowhere in the
module, so every returned function raises `NameError` when evaluated instead
of producing the claimed density array. -/
theorem getStandardPriors_closures_raise_NameError :
    getStandardPriorsCalledGlobals.length = 5 ∧
    raisesNameError "prior1" ∧ raisesNameError "prior2" ∧ raisesNameError "ss" :=
  ⟨rfl, show "prior1" ∉ priorsModuleGlobals by decide,
    show "prior2" ∉ priorsModuleGlobals by decide,
    show "ss" ∉ priorsModuleGlobals by decide⟩

/-! ### Helper lemmas about the JSON round-trip -/

lemma decQ_num (q : ℚ) : decQ (Json.num q) = some q := rfl

lemma decPair_encPair (p : ℚ × ℚ) : decPair (encPair p) = some p := rfl

lemma decTriple_encTriple (p : ℚ × ℚ × ℚ) : decTriple (encTriple p) = some p := rfl

lemma decBool_jbool (b : Bool) : decBool (Json.jbool b) = some b := rfl

lemma decEach_map_roundtrip {α : Type} (d : Json → Option α) (e : α → Json)
    (h : ∀ a, d (e a) = some a) : ∀ l : List α, decEach d (l.map e) = some l
  | [] => rfl
  | a :: t => by simp [decEach, h a, decEach_map_roundtrip d e h t]

lemma decList_encList {α : Type} (d : Json → Option α) (e : α → Json)
    (h : ∀ a, d (e a) = some a) (l : List α) : decList d (encList e l) = some l := by
  simp [encList, decList, decEach_map_roundtrip d e h l]

lemma decParamDict_encParamDict {α : Type} (d : Json → Option α) (e : α → Json)
    (h : ∀ a, d (e a) = some a) (x : ParamDict α) :
    decParamDict d (encParamDict e x) = some x := by
  cases x
  simp [encParamDict, decParamDict, List.lookup, h]

lemma decEstimateType_enc (et : EstimateType) :
    decEstimateType (encEstimateType et) = some et := by
  cases et <;> rfl

lemma decConfiguration_enc (c : Configuration) :
    decConfiguration (encConfiguration c) = some c := by
  cases c
  simp [encConfiguration, decConfiguration, List.lookup, decPair_encPair, decQ_num,
    decBool_jbool, decParamDict_encParamDict decPair encPair decPair_encPair]

lemma decDebugEntries_enc : ∀ t : List (String × List ℚ),
    decDebugEntries (t.map fun p => (p.1, encList Json.num p.2)) = some t
  | [] => rfl
  | p :: t => by
    simp [decDebugEntries, decDebugEntry,
      decList_encList decQ Json.num (fun _ => rfl) p.2, decDebugEntries_enc t]

lemma decDebug_enc (dbg : List (String × List ℚ)) : decDebug (encDebug dbg) = some dbg := by
  simp [encDebug, decDebug, decDebugEntries_enc dbg]

/-- C7: the `Result.threshold` range validation raises exactly when the
query criterion is at or below gamma or at or above `1 - lambda` (both cases
checked and rejected at the call site), and accepts every criterion strictly
inside `(gamma, 1 - lambda)`. -/
theorem threshold_range_check_spec (gamma lambda pc : ℝ) :
    (queryRaises (threshold_range_check gamma lambda pc) = true ↔
      pc ≤ gamma ∨ pc ≥ 1 - lambda) ∧
    (gamma < pc ∧ pc < 1 - lambda →
      threshold_range_check gamma lambda pc = Except.ok ()) := by
  constructor
  · unfold threshold_range_check
    split_ifs with h1 h2
    · simp only [queryRaises, true_iff]
      exact Or.inl h1
    · simp only [queryRaises, true_iff]
      exact Or.inr h2
    · rw [show queryRaises (Except.ok ()) = false from rfl]
      simp only [Bool.false_eq_true, false_iff]
      push_neg
      exact ⟨not_le.mp h1, not_le.mp h2⟩
  · rintro ⟨ha, hb⟩
    unfold threshold_range_check
    rw [if_neg (not_le.mpr ha), if_neg (not_le.mpr (by linarith))]

/-- C7 witness: `gamma = 0.2`, `lambda = 0.1`, `pc = 0.5` lies strictly
inside `(gamma, 1 - lambda)` and is accepted. -/
theorem threshold_range_check_spec_witness :
    threshold_range_check 0.2 0.1 0.5 = Except.ok () :=
  (threshold_range_check_spec 0.2 0.1 0.5).2 ⟨by norm_num, by norm_num⟩

/-- C8: Result serialization round-trips exactly —
`from_dict (as_dict r) = r`, `load_json` after `save_json` rebuilds an equal
Result (exact rational values dominate floating-point closeness), and the
configuration is nested in the dict as its own dict form. -/
theorem result_serialization_roundtrip (r : Result) :
    Result.from_dict r.as_dict = some r ∧
    Result.load_json (Result.save_json r) = some r ∧
    jsonLookup r.as_dict "configuration" = some (encConfiguration r.configuration) := by
  have h : Result.from_dict r.as_dict = some r := by
    cases r with
    | mk c pm pe ci da pv prv mp db et =>
      simp [Result.as_dict, Result.from_dict, List.lookup, decConfiguration_enc,
        decParamDict_encParamDict decQ Json.num (fun _ => rfl),
        decParamDict_encParamDict (decList decPair) (encList encPair)
          (decList_encList decPair encPair decPair_encPair),
        decParamDict_encParamDict (decList decQ) (encList Json.num)
          (decList_encList decQ Json.num (fun _ => rfl)),
        decList_encList decTriple encTriple decTriple_encTriple,
        decDebug_enc, decEstimateType_enc]
  exact ⟨h, h, rfl⟩

end Psignifit
